import Mathlib

/-! EMTE/Game.h : the application controller `Game`

A shallow embedding of the declarations of `src/EMTE/Game.h`:

* the unscoped enumerations `Game::Descriptors` and `Game::RTDescriptors`,
  with the enumerator values computed by the C++ rule (the first enumerator
  is 0 unless it has an initializer, every later one is its predecessor plus
  one unless it has an initializer);
* the struct `Game::TexHand` and its two-argument constructor;
* the texture registry `m_texHands`, a `std::map<const wchar_t*, TexHand>`:
  the keys are pointers, ordered by `std::less<const wchar_t*>`, that is by
  address;
* the load list `m_textureLoadList`, a `std::vector<const wchar_t*>`.

The header declares the member functions of `Game` but holds none of their
bodies.  The bodies that the properties below need are modelled from the
specification; each such definition says so in its doc comment.  The
descriptor table has the fixed size `Descriptors::Count`, and the slot that
the texture factory returns for a request is a parameter, `slotOf`.

`size_t` and the other unsigned indices are `Nat`; no arithmetic of the header
wraps (a vector of pointers has fewer than `2 ^ 61` elements).  `int` is `Int`.
-/

namespace Game

/-! ## Enumerations -/

/-- One enumerator of an `enum` declaration: its name and its initializer, if
it has one. -/
structure Enumerator (α : Type) where
  name : α
  init : Option Int

/-- Values of the enumerators of an `enum`, in declaration order: an
enumerator with an initializer has that value, one without has the value
`next` (0 for the first, the predecessor plus one afterwards). -/
def enumValues {α : Type} (next : Int) : List (Enumerator α) → List (α × Int)
  | [] => []
  | e :: es =>
    let v := e.init.getD next
    (e.name, v) :: enumValues (v + 1) es

/-- Value of the enumerator `n` in the declaration `decl` (0 when `decl` has
no such enumerator). -/
def enumValue {α : Type} [DecidableEq α] (decl : List (Enumerator α)) (n : α) : Int :=
  match (enumValues 0 decl).find? (fun p => decide (p.1 = n)) with
  | some p => p.2
  | none => 0

/-- Names of the enumerators of `enum Descriptors`. -/
inductive DescriptorsName
  | Gui
  | RenderTexture
  | Reserve
  | Count
  deriving DecidableEq, Repr

/-- Names of the enumerators of `enum RTDescriptors`. -/
inductive RTDescriptorsName
  | OffscreenRT
  | RTCount
  deriving DecidableEq, Repr

/-- The declaration `enum Descriptors { Gui, RenderTexture, Reserve, Count = 128 }`. -/
def DescriptorsDecl : List (Enumerator DescriptorsName) :=
  [⟨.Gui, none⟩, ⟨.RenderTexture, none⟩, ⟨.Reserve, none⟩, ⟨.Count, some 128⟩]

/-- The declaration `enum RTDescriptors { OffscreenRT, RTCount }`. -/
def RTDescriptorsDecl : List (Enumerator RTDescriptorsName) :=
  [⟨.OffscreenRT, none⟩, ⟨.RTCount, none⟩]

/-- Value of `Descriptors::Gui`. -/
def Descriptors.Gui : Int := enumValue DescriptorsDecl .Gui

/-- Value of `Descriptors::RenderTexture`. -/
def Descriptors.RenderTexture : Int := enumValue DescriptorsDecl .RenderTexture

/-- Value of `Descriptors::Reserve`. -/
def Descriptors.Reserve : Int := enumValue DescriptorsDecl .Reserve

/-- Value of `Descriptors::Count`. -/
def Descriptors.Count : Int := enumValue DescriptorsDecl .Count

/-- Value of `RTDescriptors::OffscreenRT`. -/
def RTDescriptors.OffscreenRT : Int := enumValue RTDescriptorsDecl .OffscreenRT

/-- Value of `RTDescriptors::RTCount`. -/
def RTDescriptors.RTCount : Int := enumValue RTDescriptorsDecl .RTCount

/-! ## Texture handles -/

/-- The struct `TexHand`: the texture's descriptor and its slot in the
`EffectTextureFactory`, both `size_t`. -/
structure TexHand where
  desc : Nat
  slot : Nat
  deriving DecidableEq, Repr

/-- The constructor `TexHand(size_t desc, size_t slot)`.  `this` is the object
under construction, whose members hold indeterminate values on entry; the body
runs `this->desc = desc;` and then `this->slot = slot;`. -/
def TexHand.ctor (this : TexHand) (desc slot : Nat) : TexHand :=
  let this := { this with desc := desc }
  let this := { this with slot := slot }
  this


/-! ## The texture registry -/

/-- A `const wchar_t*`: the address of the first character of a string. -/
abbrev WCharPtr := Nat

/-- The null-terminated wide strings that live in memory, each with the address
of its first character. -/
structure Memory where
  strings : List (WCharPtr × List Nat)

/-- The characters of the string that `p` points to (`none` when `p` points to
no string). -/
def Memory.read (mem : Memory) (p : WCharPtr) : Option (List Nat) :=
  (mem.strings.find? (fun o => decide (o.1 = p))).map (fun o => o.2)

/-- Insertion into the sorted sequence of entries of a
`std::map<const wchar_t*, TexHand>`.  The order is `std::less<const wchar_t*>`:
addresses are compared, the strings are never read.  Two keys are equivalent
when neither is less than the other.  With `assign` the mapped value of an
equivalent key is overwritten (`insert_or_assign`), without it the entry is
left as it is (`insert`, `emplace`). -/
def insertEntries (assign : Bool) (k : WCharPtr) (v : TexHand) :
    List (WCharPtr × TexHand) → List (WCharPtr × TexHand)
  | [] => [(k, v)]
  | e :: es =>
    if k < e.1 then (k, v) :: e :: es
    else if e.1 < k then e :: insertEntries assign k v es
    else if assign then (e.1, v) :: es
    else e :: es

/-- The container `std::map<const wchar_t*, TexHand>`: its entries in
iteration order. -/
structure StdMap where
  entries : List (WCharPtr × TexHand)
  deriving DecidableEq, Repr

/-- The empty map. -/
def StdMap.empty : StdMap := ⟨[]⟩

/-- Member `size()`. -/
def StdMap.size (m : StdMap) : Nat := m.entries.length

/-- Member `insert`: adds the entry unless an equivalent key is present. -/
def StdMap.insert (m : StdMap) (k : WCharPtr) (v : TexHand) : StdMap :=
  ⟨insertEntries false k v m.entries⟩

/-- Member `insert_or_assign`: adds the entry, or overwrites the mapped value
of the equivalent key. -/
def StdMap.insert_or_assign (m : StdMap) (k : WCharPtr) (v : TexHand) : StdMap :=
  ⟨insertEntries true k v m.entries⟩

/-- Member `erase(k)`: removes the entry whose key is equivalent to `k`. -/
def StdMap.erase (m : StdMap) (k : WCharPtr) : StdMap :=
  ⟨m.entries.filter (fun e => decide (e.1 < k ∨ k < e.1))⟩

/-- A modifying operation of the map. -/
inductive MapOp
  | insert (k : WCharPtr) (v : TexHand)
  | insert_or_assign (k : WCharPtr) (v : TexHand)
  | erase (k : WCharPtr)
  | clear
  deriving DecidableEq, Repr

/-- Effect of one modifying operation. -/
def StdMap.apply (m : StdMap) : MapOp → StdMap
  | .insert k v => m.insert k v
  | .insert_or_assign k v => m.insert_or_assign k v
  | .erase k => m.erase k
  | .clear => StdMap.empty

/-- The wide string `L"a.dds"`. -/
def aDds : List Nat := [97, 46, 100, 100, 115]

/-- A memory that holds the string `L"a.dds"` twice, at the addresses 4096 and
8192. -/
def twoCopies : Memory := ⟨[(4096, aDds), (8192, aDds)]⟩

/-- The entries of a map are sorted by strictly increasing address. -/
def KeysSorted (es : List (WCharPtr × TexHand)) : Prop :=
  es.Pairwise (fun a b => a.1 < b.1)

/-! ## Collaborators

`DirectX::DescriptorPile` and `DirectX::EffectTextureFactory` are library
classes; the header only holds pointers to them. -/

/-- Modelled from the spec: the descriptor table behind `m_srvPile`, which is
not part of the header.  The spec describes "fixed-size index spaces ...
partitioning a descriptor heap", says that loading a texture "allocates a
descriptor-table entry" and that descriptor indices "never collide":
`capacity` is the size of the index space and `top` is the index of the next
entry that has not been handed out. -/
structure DescriptorPile where
  capacity : Nat
  top : Nat
  deriving DecidableEq, Repr

/-- Modelled from the spec: allocation of one descriptor-table entry, which is
not part of the header: the next unused index is handed out; when every index
of the fixed-size space has been handed out the allocation fails (`none`). -/
def DescriptorPile.Allocate (p : DescriptorPile) : Option (Nat × DescriptorPile) :=
  if p.top < p.capacity then some (p.top, { p with top := p.top + 1 }) else none

/-- Modelled from the spec: the rule by which the texture factory picks the
slot index, which is not part of the header.  The spec only says that the
factory, "given a texture identifier, returns a GPU-resident slot index"; it
does not say which.  The rule is therefore a parameter: the index returned for
an identifier, given the identifiers that were requested before it. -/
abbrev SlotPolicy := List WCharPtr → WCharPtr → Nat

/-- Modelled from the spec: the texture factory behind `m_textureResources`,
which is not part of the header: the identifiers it has been asked for, in
order, and the pairs (slot, descriptor-table entry) registered with it. -/
structure EffectTextureFactory where
  requested : List WCharPtr
  registered : List (Nat × Nat)
  deriving DecidableEq, Repr

/-- Modelled from the spec: the factory operation that, "given a texture
identifier, returns a GPU-resident slot index", which is not part of the
header; the index is the one the rule `slotOf` picks. -/
def EffectTextureFactory.CreateTexture (slotOf : SlotPolicy) (f : EffectTextureFactory)
    (name : WCharPtr) : Nat × EffectTextureFactory :=
  (slotOf f.requested name, { f with requested := f.requested ++ [name] })

/-- Modelled from the spec: the factory operation that "accepts
descriptor-table registration", which is not part of the header: the entry
`desc` of the descriptor table is recorded for the texture in `slot`. -/
def EffectTextureFactory.Register (f : EffectTextureFactory) (slot desc : Nat) :
    EffectTextureFactory :=
  { f with registered := f.registered ++ [(slot, desc)] }

/-- A slot rule: every request gets the next index, whatever the identifier. -/
def freshSlots : SlotPolicy :=
  fun requested _ => requested.length

/-- A slot rule: one slot for each texture name; a request gets the index of
the first request whose string equals its own. -/
def sharedSlots (mem : Memory) : SlotPolicy :=
  fun requested name =>
    (requested ++ [name]).findIdx (fun p => decide (mem.read p = mem.read name))

/-- The factory returns different slots for different identifiers of the load
list `l`. -/
def SlotsDistinct (slotOf : SlotPolicy) (l : List WCharPtr) : Prop :=
  ∀ i j a b, l[i]? = some a → l[j]? = some b → a ≠ b →
    slotOf (l.take i) a ≠ slotOf (l.take j) b

end Game

/-! ## The controller -/

/-- The data members of `class Game` that own or describe the textures, and
the frame counter of `m_timer`.  A `std::unique_ptr` is an `Option`, `none`
being the null pointer. -/
structure Game where
  m_frameCount : Nat
  m_srvPile : Option Game.DescriptorPile
  m_textureResources : Option Game.EffectTextureFactory
  m_texHands : Option Game.StdMap
  m_textureLoadList : List Game.WCharPtr
  deriving DecidableEq, Repr

namespace Game

/-- Modelled from the spec: one iteration of the loop of `LoadTextures`, whose
body is not part of the header.  For the identifier `name` the loop "asks the
texture-factory collaborator for each texture's GPU slot, allocates a
descriptor-table entry, and inserts (name → handle) into the registry";
for a name that is already registered the "last write wins".  The iteration
fails (`none`) when no descriptor-table entry is left. -/
def loadTexture (slotOf : SlotPolicy) (s : DescriptorPile × EffectTextureFactory × StdMap)
    (name : WCharPtr) : Option (DescriptorPile × EffectTextureFactory × StdMap) :=
  let (slot, factory) := s.2.1.CreateTexture slotOf name
  match s.1.Allocate with
  | none => none
  | some (desc, pile) =>
    some (pile, factory.Register slot desc,
      s.2.2.insert_or_assign name (TexHand.ctor ⟨0, 0⟩ desc slot))

/-- Modelled from the spec: `Game::LoadTextures`, whose body is not part of
the header: it "iterates a static load list of texture identifiers" and
registers each of them.  It dereferences `m_srvPile`, `m_textureResources` and
`m_texHands`; the result is `none` when one of them is null or when an
iteration fails. -/
def LoadTextures (slotOf : SlotPolicy) (g : Game) : Option Game :=
  match g.m_srvPile, g.m_textureResources, g.m_texHands with
  | some pile, some factory, some hands =>
    (g.m_textureLoadList.foldlM (loadTexture slotOf) (pile, factory, hands)).map
      (fun s => { g with m_srvPile := some s.1, m_textureResources := some s.2.1,
                         m_texHands := some s.2.2 })
  | _, _, _ => none

/-- Modelled from the spec: `Game::CreateDeviceDependentResources`, whose body
is not part of the header: it constructs the GPU-dependent objects afresh (the
descriptor table of `Descriptors::Count` entries, of which those below
`Descriptors::Reserve` are the fixed ones, the texture factory and the
registry) and loads the textures of the load list. -/
def CreateDeviceDependentResources (slotOf : SlotPolicy) (g : Game) : Option Game :=
  LoadTextures slotOf
    { g with m_srvPile := some { capacity := Descriptors.Count.toNat,
                                 top := Descriptors.Reserve.toNat },
             m_textureResources := some { requested := [], registered := [] },
             m_texHands := some StdMap.empty }

/-- Modelled from the spec: `Game::CreateWindowSizeDependentResources`, whose
body is not part of the header: it rebuilds what depends on the size of the
window, which is none of the members kept here. -/
def CreateWindowSizeDependentResources (g : Game) : Option Game :=
  some g

/-- Modelled from the spec: `Game::OnDeviceLost`, whose body is not part of
the header: it will "release all GPU-dependent objects (textures, batches,
descriptor heaps)"; the registry "is torn down". -/
def OnDeviceLost (g : Game) : Game :=
  { g with m_srvPile := none, m_textureResources := none, m_texHands := none }

/-- Modelled from the spec: `Game::OnDeviceRestored`, whose body is not part
of the header: it will "reconstruct" the GPU-dependent objects, by the two
resource-creation functions. -/
def OnDeviceRestored (slotOf : SlotPolicy) (g : Game) : Option Game :=
  (CreateDeviceDependentResources slotOf g).bind CreateWindowSizeDependentResources

/-- Modelled from the spec: `Game::Tick`, whose body is not part of the
header: it "advances the frame timer, calls Update then Render"; neither
touches the texture members (the registry "is only ever mutated ... during
reset"). -/
def Tick (g : Game) : Option Game :=
  some { g with m_frameCount := g.m_frameCount + 1 }

/-- Modelled from the spec: `Game::OnWindowSizeChanged`, whose body is not part
of the header: it "triggers resize-dependent resource rebuild". -/
def OnWindowSizeChanged (g : Game) (_width _height : Int) : Option Game :=
  CreateWindowSizeDependentResources g

/-- A call of a public member function of the controller after
initialization. -/
inductive Call
  | Tick
  | OnDeviceLost
  | OnDeviceRestored
  | OnActivated
  | OnDeactivated
  | OnSuspending
  | OnResuming
  | OnWindowMoved
  | OnDisplayChange
  | OnWindowSizeChanged (width height : Int)
  deriving DecidableEq, Repr

/-- Modelled from the spec: the effect of one call on the controller.  The
bodies are not part of the header; `OnActivated`, `OnDeactivated`,
`OnSuspending`, `OnResuming`, `OnWindowMoved` and `OnDisplayChange` are
"stateless passthrough notifications". -/
def call (slotOf : SlotPolicy) (g : Game) : Call → Option Game
  | .Tick => Tick g
  | .OnDeviceLost => some (OnDeviceLost g)
  | .OnDeviceRestored => OnDeviceRestored slotOf g
  | .OnWindowSizeChanged w h => OnWindowSizeChanged g w h
  | _ => some g

/-- The controller after a sequence of calls, `none` when one of them
fails. -/
def calls (slotOf : SlotPolicy) (g : Game) (cs : List Call) : Option Game :=
  cs.foldlM (call slotOf) g

/-- Number of entries of the texture registry (`m_texHands->size()`), `none`
when there is no registry. -/
def registrySize (g : Game) : Option Nat :=
  g.m_texHands.map StdMap.size

/-- Modelled from the spec: `Game::GetDefaultSize`, whose body is not part of
the header: it "returns fixed constants; pure, no side effects".  The two
constants are the parameters `defaultWidth` and `defaultHeight`; `width` and
`height` are the values that the two reference arguments hold on entry.  The
result is the controller after the call and the values of the two references
on return. -/
def GetDefaultSize (defaultWidth defaultHeight : Int) (g : Game) (_width _height : Int) :
    Game × Int × Int :=
  (g, defaultWidth, defaultHeight)

/-- The registry is complete and its handles are pairwise different:
`CreateDeviceDependentResources` returns, the registry it leaves holds an
entry for every identifier of the load list, and any two different entries
differ in `desc` and differ in `slot`. -/
def RegistryComplete (slotOf : SlotPolicy) (g : Game) : Prop :=
  ∃ g' reg, CreateDeviceDependentResources slotOf g = some g' ∧
    g'.m_texHands = some reg ∧
    (∀ n ∈ g.m_textureLoadList, ∃ e ∈ reg.entries, e.1 = n) ∧
    (∀ e₁ ∈ reg.entries, ∀ e₂ ∈ reg.entries, e₁ ≠ e₂ →
      e₁.2.desc ≠ e₂.2.desc ∧ e₁.2.slot ≠ e₂.2.slot)

/-- A controller before initialization, with the load list `l`. -/
def withLoadList (l : List WCharPtr) : Game :=
  { m_frameCount := 0, m_srvPile := none, m_textureResources := none, m_texHands := none,
    m_textureLoadList := l }

/-- A controller with the load list `[4096, 8192, 4096]` before
initialization. -/
def threeNames : Game := withLoadList [4096, 8192, 4096]

/-- The controller `threeNames` after `CreateDeviceDependentResources`, with a
factory that gives every request the next slot. -/
def threeNamesLoaded : Game :=
  { m_frameCount := 0, m_srvPile := some ⟨128, 5⟩,
    m_textureResources := some ⟨[4096, 8192, 4096], [(0, 2), (1, 3), (2, 4)]⟩,
    m_texHands := some ⟨[(4096, ⟨4, 2⟩), (8192, ⟨3, 1⟩)]⟩,
    m_textureLoadList := [4096, 8192, 4096] }

/-- The controller `threeNamesLoaded` one frame later, after the device was
lost. -/
def threeNamesLost : Game :=
  { m_frameCount := 1, m_srvPile := none, m_textureResources := none, m_texHands := none,
    m_textureLoadList := [4096, 8192, 4096] }

/-- A controller whose load list holds the two addresses of `L"a.dds"` in the
memory `twoCopies`. -/
def twoNames : Game := withLoadList [4096, 8192]

/-- The controller `twoNames` after `CreateDeviceDependentResources`, with a
factory that keeps one slot for each texture name of the memory
`twoCopies`. -/
def twoNamesShared : Game :=
  { m_frameCount := 0, m_srvPile := some ⟨128, 4⟩,
    m_textureResources := some ⟨[4096, 8192], [(0, 2), (0, 3)]⟩,
    m_texHands := some ⟨[(4096, ⟨2, 0⟩), (8192, ⟨3, 0⟩)]⟩,
    m_textureLoadList := [4096, 8192] }

/-- A controller whose load list holds 127 different addresses, 4096 to
4222. -/
def manyNames : Game := withLoadList (List.range' 4096 127)

end Game

namespace Game

/-! ## Facts about the map -/

theorem mem_insertEntries_cases (a : Bool) (k : WCharPtr) (v : TexHand)
    (es : List (WCharPtr × TexHand)) (e : WCharPtr × TexHand)
    (h : e ∈ insertEntries a k v es) : e = (k, v) ∨ e ∈ es := by
  induction es with
  | nil => simp [insertEntries] at h; exact Or.inl h
  | cons x xs ih =>
    unfold insertEntries at h
    split_ifs at h with h1 h2 h3
    · rcases List.mem_cons.1 h with h | h
      · exact Or.inl h
      · exact Or.inr h
    · rcases List.mem_cons.1 h with h | h
      · exact Or.inr (h ▸ List.mem_cons_self _ _)
      · rcases ih h with h | h
        · exact Or.inl h
        · exact Or.inr (List.mem_cons_of_mem _ h)
    · have hk : x.1 = k := Nat.le_antisymm (Nat.le_of_not_lt h1) (Nat.le_of_not_lt h2)
      rcases List.mem_cons.1 h with h | h
      · exact Or.inl (by rw [h, hk])
      · exact Or.inr (List.mem_cons_of_mem _ h)
    · exact Or.inr h

theorem keysSorted_insertEntries (a : Bool) (k : WCharPtr) (v : TexHand)
    (es : List (WCharPtr × TexHand)) (h : KeysSorted es) :
    KeysSorted (insertEntries a k v es) := by
  induction es with
  | nil => simp [insertEntries, KeysSorted]
  | cons x xs ih =>
    have hx := List.pairwise_cons.1 h
    unfold insertEntries
    split_ifs with h1 h2 h3
    · refine List.pairwise_cons.2 ⟨?_, h⟩
      intro b hb
      rcases List.mem_cons.1 hb with hb | hb
      · rw [hb]; exact h1
      · exact lt_trans h1 (hx.1 b hb)
    · refine List.pairwise_cons.2 ⟨?_, ih hx.2⟩
      intro b hb
      rcases mem_insertEntries_cases a k v xs b hb with hb | hb
      · rw [hb]; exact h2
      · exact hx.1 b hb
    · exact List.pairwise_cons.2 ⟨fun b hb => hx.1 b hb, hx.2⟩
    · exact h

theorem keysSorted_unique (es : List (WCharPtr × TexHand)) (h : KeysSorted es)
    (e₁ e₂ : WCharPtr × TexHand) (h₁ : e₁ ∈ es) (h₂ : e₂ ∈ es) (hk : e₁.1 = e₂.1) :
    e₁ = e₂ := by
  induction es with
  | nil => cases h₁
  | cons x xs ih =>
    have hx := List.pairwise_cons.1 h
    rcases List.mem_cons.1 h₁ with h₁ | h₁ <;> rcases List.mem_cons.1 h₂ with h₂ | h₂
    · rw [h₁, h₂]
    · have := hx.1 e₂ h₂
      rw [← h₁, hk] at this
      exact absurd this (lt_irrefl _)
    · have := hx.1 e₁ h₁
      rw [← h₂, hk] at this
      exact absurd this (lt_irrefl _)
    · exact ih hx.2 h₁ h₂

theorem self_mem_insertEntries (k : WCharPtr) (v : TexHand)
    (es : List (WCharPtr × TexHand)) : (k, v) ∈ insertEntries true k v es := by
  induction es with
  | nil => simp [insertEntries]
  | cons x xs ih =>
    unfold insertEntries
    simp only [if_true]
    split_ifs with h1 h2
    · exact List.mem_cons_self _ _
    · exact List.mem_cons_of_mem _ ih
    · have hk : x.1 = k := Nat.le_antisymm (Nat.le_of_not_lt h1) (Nat.le_of_not_lt h2)
      rw [hk]
      exact List.mem_cons_self _ _

theorem mem_insertEntries_of_ne (a : Bool) (k : WCharPtr) (v : TexHand)
    (es : List (WCharPtr × TexHand)) (e : WCharPtr × TexHand) (h : e ∈ es) (hk : e.1 ≠ k) :
    e ∈ insertEntries a k v es := by
  induction es with
  | nil => cases h
  | cons x xs ih =>
    unfold insertEntries
    split_ifs with h1 h2 h3
    · exact List.mem_cons_of_mem _ h
    · rcases List.mem_cons.1 h with h | h
      · exact h ▸ List.mem_cons_self _ _
      · exact List.mem_cons_of_mem _ (ih h)
    · have hx : x.1 = k := Nat.le_antisymm (Nat.le_of_not_lt h1) (Nat.le_of_not_lt h2)
      rcases List.mem_cons.1 h with h | h
      · exact absurd (h ▸ hx) hk
      · exact List.mem_cons_of_mem _ h
    · exact h

/-! ## Facts about the loading loop -/

/-- The loop of `LoadTextures` over the names `l`, started with a descriptor
table of `cap` entries whose next unused entry is `t`, an empty factory and an
empty registry, when the table has room for `l`: the loop returns, the table
has handed out `l.length` entries, the factory has seen the names of `l`, the
registry is sorted, every entry holds the handle made at the last occurrence
of its key, and every name of `l` is a key. -/
theorem loadTexture_foldlM (slotOf : SlotPolicy) (cap t : Nat) (l : List WCharPtr)
    (hcap : t + l.length ≤ cap) :
    ∃ s, l.foldlM (loadTexture slotOf) (⟨cap, t⟩, ⟨[], []⟩, StdMap.empty) = some s ∧
      s.1 = ⟨cap, t + l.length⟩ ∧ s.2.1.requested = l ∧
      KeysSorted s.2.2.entries ∧
      (∀ e ∈ s.2.2.entries, ∃ i, l[i]? = some e.1 ∧ e.1 ∉ l.drop (i + 1) ∧
        e.2 = ⟨t + i, slotOf (l.take i) e.1⟩) ∧
      (∀ n ∈ l, ∃ e ∈ s.2.2.entries, e.1 = n) := by
  induction l using List.reverseRecOn with
  | nil =>
    refine ⟨_, rfl, rfl, rfl, List.Pairwise.nil, ?_, ?_⟩
    · intro e he
      cases he
    · intro n hn
      cases hn
  | append_singleton pre x ih =>
    have hlen : (pre ++ [x]).length = pre.length + 1 := by simp
    obtain ⟨s, hs, hPile, hReq, hSorted, hEntries, hKeys⟩ := ih (by omega)
    obtain ⟨pile, factory, hands⟩ := s
    simp only at hPile hReq hSorted hEntries hKeys
    subst hPile
    have hlt : t + pre.length < cap := by omega
    have hstep : loadTexture slotOf (⟨cap, t + pre.length⟩, factory, hands) x =
        some (⟨cap, t + pre.length + 1⟩,
          ⟨pre ++ [x], factory.registered ++ [(slotOf pre x, t + pre.length)]⟩,
          ⟨insertEntries true x ⟨t + pre.length, slotOf pre x⟩ hands.entries⟩) := by
      simp [loadTexture, DescriptorPile.Allocate, EffectTextureFactory.CreateTexture,
        EffectTextureFactory.Register, StdMap.insert_or_assign, TexHand.ctor, hlt, hReq]
    have hSorted' := keysSorted_insertEntries true x ⟨t + pre.length, slotOf pre x⟩
      hands.entries hSorted
    refine ⟨(⟨cap, t + pre.length + 1⟩,
          ⟨pre ++ [x], factory.registered ++ [(slotOf pre x, t + pre.length)]⟩,
          ⟨insertEntries true x ⟨t + pre.length, slotOf pre x⟩ hands.entries⟩),
        ?_, ?_, rfl, hSorted', ?_, ?_⟩
    · rw [List.foldlM_append, hs]
      simp only [List.foldlM_cons, List.foldlM_nil, bind, Option.bind, hstep, pure]
    · rw [hlen]; rfl
    · intro e he
      by_cases hx : e.1 = x
      · have heq : e = (x, ⟨t + pre.length, slotOf pre x⟩) :=
          keysSorted_unique _ hSorted' _ _ he (self_mem_insertEntries x _ _) hx
        subst heq
        refine ⟨pre.length, ?_, ?_, ?_⟩
        · simp
        · simp
        · simp
      · rcases mem_insertEntries_cases _ _ _ _ _ he with h | h
        · exact absurd (by rw [h]) hx
        · obtain ⟨i, h1, h2, h3⟩ := hEntries e h
          have hi : i < pre.length := (List.getElem?_eq_some.1 h1).1
          refine ⟨i, ?_, ?_, ?_⟩
          · rw [List.getElem?_append_left hi]; exact h1
          · rw [List.drop_append_of_le_length (by omega)]
            simp only [List.mem_append, List.mem_singleton, not_or]
            exact ⟨h2, hx⟩
          · rw [List.take_append_of_le_length (by omega)]; exact h3
    · intro n hn
      by_cases hx : n = x
      · exact ⟨_, self_mem_insertEntries x _ _, hx.symm⟩
      · rcases List.mem_append.1 hn with hn | hn
        · obtain ⟨e, he, hk⟩ := hKeys n hn
          exact ⟨e, mem_insertEntries_of_ne _ _ _ _ _ he (by rw [hk]; exact hx), hk⟩
        · exact absurd (List.mem_singleton.1 hn) hx

/-- The loop of `LoadTextures` fails when the load list is longer than the
number of entries that the descriptor table has left. -/
theorem loadTexture_foldlM_full (slotOf : SlotPolicy) (l : List WCharPtr)
    (s : DescriptorPile × EffectTextureFactory × StdMap)
    (htop : s.1.top ≤ s.1.capacity) (hcap : s.1.capacity < s.1.top + l.length) :
    l.foldlM (loadTexture slotOf) s = none := by
  induction l generalizing s with
  | nil => simp at hcap; omega
  | cons x xs ih =>
    rw [List.foldlM_cons]
    by_cases h : s.1.top < s.1.capacity
    · simp only [loadTexture, DescriptorPile.Allocate, h, if_true, bind, Option.bind]
      apply ih
      · simp only; omega
      · simp only [List.length_cons] at hcap ⊢; omega
    · simp [loadTexture, DescriptorPile.Allocate, h]

theorem createDeviceDependentResources_eq (slotOf : SlotPolicy) (g : Game) :
    CreateDeviceDependentResources slotOf g =
      (g.m_textureLoadList.foldlM (loadTexture slotOf)
        (⟨Descriptors.Count.toNat, Descriptors.Reserve.toNat⟩, ⟨[], []⟩, StdMap.empty)).map
        (fun s => { g with m_srvPile := some s.1, m_textureResources := some s.2.1,
                           m_texHands := some s.2.2 }) :=
  rfl

theorem descriptors_room (n : Nat) :
    (n : Int) ≤ Descriptors.Count - Descriptors.Reserve ↔
      Descriptors.Reserve.toNat + n ≤ Descriptors.Count.toNat := by
  have hC : Descriptors.Count = 128 := by decide
  have hR : Descriptors.Reserve = 2 := by decide
  have hC' : Descriptors.Count.toNat = 128 := by decide
  have hR' : Descriptors.Reserve.toNat = 2 := by decide
  rw [hC', hR', hC, hR]
  omega

/-- `CreateDeviceDependentResources` fails on a load list that is longer than
the part of the descriptor table from `Reserve` up to `Count`. -/
theorem createDeviceDependentResources_full (slotOf : SlotPolicy) (g : Game)
    (h : Descriptors.Count - Descriptors.Reserve < (g.m_textureLoadList.length : Int)) :
    CreateDeviceDependentResources slotOf g = none := by
  rw [createDeviceDependentResources_eq, loadTexture_foldlM_full]
  · rfl
  · decide
  · have := (descriptors_room g.m_textureLoadList.length).not.1 (not_le.2 h)
    show Descriptors.Count.toNat < Descriptors.Reserve.toNat + g.m_textureLoadList.length
    omega

theorem createDeviceDependentResources_loadList (slotOf : SlotPolicy) (g g' : Game)
    (h : CreateDeviceDependentResources slotOf g = some g') :
    g'.m_textureLoadList = g.m_textureLoadList := by
  rw [createDeviceDependentResources_eq] at h
  cases hf : g.m_textureLoadList.foldlM (loadTexture slotOf)
      (⟨Descriptors.Count.toNat, Descriptors.Reserve.toNat⟩, ⟨[], []⟩, StdMap.empty) with
  | none => rw [hf] at h; cases h
  | some s =>
    rw [hf] at h
    rw [← Option.some.inj h]

theorem call_loadList (slotOf : SlotPolicy) (g g' : Game) (c : Call)
    (h : call slotOf g c = some g') :
    g'.m_textureLoadList = g.m_textureLoadList := by
  cases c with
  | OnDeviceRestored =>
    simp only [call, OnDeviceRestored] at h
    cases hc : CreateDeviceDependentResources slotOf g with
    | none => rw [hc] at h; cases h
    | some g₂ =>
      rw [hc] at h
      simp only [Option.some_bind, CreateWindowSizeDependentResources,
        Option.some.injEq] at h
      rw [← h]
      exact createDeviceDependentResources_loadList slotOf g g₂ hc
  | _ =>
    simp only [call, Tick, OnDeviceLost, OnWindowSizeChanged,
      CreateWindowSizeDependentResources, Option.some.injEq] at h
    rw [← h]

theorem calls_loadList (slotOf : SlotPolicy) (cs : List Call) (g g' : Game)
    (h : calls slotOf g cs = some g') :
    g'.m_textureLoadList = g.m_textureLoadList := by
  induction cs generalizing g with
  | nil =>
    simp only [calls, List.foldlM_nil, pure, Option.some.injEq] at h
    rw [← h]
  | cons c cs ih =>
    simp only [calls, List.foldlM_cons, bind] at h
    cases hc : call slotOf g c with
    | none => rw [hc] at h; simp at h
    | some g₂ =>
      rw [hc] at h
      rw [ih g₂ h, call_loadList slotOf g g₂ c hc]

/-- A factory that gives every request the next slot returns different slots
for different identifiers. -/
theorem slotsDistinct_freshSlots (l : List WCharPtr) : SlotsDistinct freshSlots l := by
  intro i j a b hi hj hab heq
  have hi' : i < l.length := (List.getElem?_eq_some.1 hi).1
  have hj' : j < l.length := (List.getElem?_eq_some.1 hj).1
  simp only [freshSlots, List.length_take] at heq
  have hij : i = j := by omega
  subst hij
  rw [hi] at hj
  exact hab (Option.some.inj hj)

/-- C7. In `enum Descriptors` the indices `Gui`, `RenderTexture` and `Reserve`
are pairwise distinct and each is strictly below `Count`; in
`enum RTDescriptors` the index `OffscreenRT` is strictly below `RTCount`. -/
theorem descriptor_indices_never_collide :
    Descriptors.Gui ≠ Descriptors.RenderTexture ∧
    Descriptors.Gui ≠ Descriptors.Reserve ∧
    Descriptors.RenderTexture ≠ Descriptors.Reserve ∧
    Descriptors.Gui < Descriptors.Count ∧
    Descriptors.RenderTexture < Descriptors.Count ∧
    Descriptors.Reserve < Descriptors.Count ∧
    RTDescriptors.OffscreenRT < RTDescriptors.RTCount := by
  decide

/-- C8. A texture handle is the pair it was built from: whatever the members
held before construction, `TexHand(d, s)` has `desc = d` and `slot = s`. -/
theorem texHand_ctor_fields (this : TexHand) (d s : Nat) :
    (TexHand.ctor this d s).desc = d ∧ (TexHand.ctor this d s).slot = s := by
  simp [TexHand.ctor]

/-- C9 as stated fails: the number of indices of `enum Descriptors` from
`Reserve` up to `Count` is not 128. -/
theorem reserve_range_is_not_128 :
    ¬ (Descriptors.Count - Descriptors.Reserve = 128) := by
  decide

/-- C9, amended. The descriptor index space has 128 indices in all
(`Count = 128`), `Reserve` is index 2, and the range from `Reserve` up to
`Count` has 126 indices. -/
theorem reserve_range_is_126 :
    Descriptors.Count = 128 ∧ Descriptors.Reserve = 2 ∧
    Descriptors.Count - Descriptors.Reserve = 126 := by
  decide

/-- C1 as stated fails, in both of its parts.  With 127 different identifiers
in the load list the descriptor table, whose entries from `Reserve` up to
`Count` number 126, runs out and `CreateDeviceDependentResources` does not
return.  With the load list `[4096, 8192]` and a factory that keeps one slot
for each texture name, both entries of the registry have the slot 0, since
both addresses hold `L"a.dds"`. -/
theorem registry_not_complete_for_every_list :
    ¬ RegistryComplete freshSlots manyNames ∧
    ¬ RegistryComplete (sharedSlots twoCopies) twoNames := by
  constructor
  · rintro ⟨g', reg, h, _⟩
    have hlen : manyNames.m_textureLoadList.length = 127 := by
      simp [manyNames, withLoadList]
    rw [createDeviceDependentResources_full freshSlots manyNames
      (by rw [hlen]; decide)] at h
    cases h
  · rintro ⟨g', reg, h, hreg, _, hdiff⟩
    have hc : CreateDeviceDependentResources (sharedSlots twoCopies) twoNames =
        some twoNamesShared := by decide
    rw [hc] at h
    cases h
    cases hreg
    exact (hdiff (4096, ⟨2, 0⟩) (by decide) (8192, ⟨3, 0⟩) (by decide) (by decide)).2 rfl

/-- C1, amended. For every load list of at most `Count - Reserve` (126)
identifiers and every slot rule of the factory, `CreateDeviceDependentResources`
returns, the registry it leaves holds an entry for every identifier of the
load list, any two different entries differ in `desc`, the `slot` of an entry
is the slot that the factory returned at the last occurrence of its key in the
load list, and any two different entries differ in `slot` when the factory
returns different slots for different identifiers. -/
theorem registry_after_create (slotOf : SlotPolicy) (g : Game)
    (hlen : (g.m_textureLoadList.length : Int) ≤ Descriptors.Count - Descriptors.Reserve) :
    ∃ g' reg, CreateDeviceDependentResources slotOf g = some g' ∧
      g'.m_textureLoadList = g.m_textureLoadList ∧
      g'.m_texHands = some reg ∧
      (∀ n ∈ g.m_textureLoadList, ∃ e ∈ reg.entries, e.1 = n) ∧
      (∀ e₁ ∈ reg.entries, ∀ e₂ ∈ reg.entries, e₁ ≠ e₂ → e₁.2.desc ≠ e₂.2.desc) ∧
      (∀ e ∈ reg.entries, ∃ i, g.m_textureLoadList[i]? = some e.1 ∧
        e.1 ∉ g.m_textureLoadList.drop (i + 1) ∧
        e.2.slot = slotOf (g.m_textureLoadList.take i) e.1) ∧
      (SlotsDistinct slotOf g.m_textureLoadList →
        ∀ e₁ ∈ reg.entries, ∀ e₂ ∈ reg.entries, e₁ ≠ e₂ → e₁.2.slot ≠ e₂.2.slot) := by
  obtain ⟨s, hs, _, _, hSorted, hEntries, hKeys⟩ :=
    loadTexture_foldlM slotOf Descriptors.Count.toNat Descriptors.Reserve.toNat
      g.m_textureLoadList ((descriptors_room _).1 hlen)
  refine ⟨{ g with m_srvPile := some s.1, m_textureResources := some s.2.1,
                   m_texHands := some s.2.2 }, s.2.2, ?_, rfl, rfl, hKeys, ?_, ?_, ?_⟩
  · rw [createDeviceDependentResources_eq, hs]
    rfl
  · intro e₁ h₁ e₂ h₂ hne hd
    obtain ⟨i₁, hg₁, _, hv₁⟩ := hEntries e₁ h₁
    obtain ⟨i₂, hg₂, _, hv₂⟩ := hEntries e₂ h₂
    rw [hv₁, hv₂] at hd
    have hi : i₁ = i₂ := by simpa using hd
    rw [hi, hg₂] at hg₁
    exact hne (keysSorted_unique _ hSorted e₁ e₂ h₁ h₂ (Option.some.inj hg₁).symm)
  · intro e he
    obtain ⟨i, hg, hdrop, hv⟩ := hEntries e he
    exact ⟨i, hg, hdrop, by rw [hv]⟩
  · intro hslots e₁ h₁ e₂ h₂ hne heq
    obtain ⟨i₁, hg₁, _, hv₁⟩ := hEntries e₁ h₁
    obtain ⟨i₂, hg₂, _, hv₂⟩ := hEntries e₂ h₂
    rw [hv₁, hv₂] at heq
    exact hslots i₁ i₂ e₁.1 e₂.1 hg₁ hg₂
      (fun hk => hne (keysSorted_unique _ hSorted e₁ e₂ h₁ h₂ hk)) heq

/-- Witness of C1, amended: the load list `[4096, 8192, 4096]` and a factory
that gives every request the next slot. -/
theorem registry_after_create_witness :
    (threeNames.m_textureLoadList.length : Int) ≤ Descriptors.Count - Descriptors.Reserve ∧
    SlotsDistinct freshSlots threeNames.m_textureLoadList ∧
    ∃ reg, CreateDeviceDependentResources freshSlots threeNames = some threeNamesLoaded ∧
      threeNamesLoaded.m_texHands = some reg ∧
      (∀ n ∈ threeNames.m_textureLoadList, ∃ e ∈ reg.entries, e.1 = n) ∧
      (∀ e₁ ∈ reg.entries, ∀ e₂ ∈ reg.entries, e₁ ≠ e₂ →
        e₁.2.desc ≠ e₂.2.desc ∧ e₁.2.slot ≠ e₂.2.slot) := by
  refine ⟨by decide, slotsDistinct_freshSlots _, ?_⟩
  obtain ⟨g', reg, hc, _, hreg, hkeys, hdesc, _, hslot⟩ :=
    registry_after_create freshSlots threeNames (by decide)
  have hc' : CreateDeviceDependentResources freshSlots threeNames = some threeNamesLoaded := by
    decide
  rw [hc'] at hc
  cases hc
  exact ⟨reg, rfl, hreg, hkeys, fun e₁ h₁ e₂ h₂ hne =>
    ⟨hdesc e₁ h₁ e₂ h₂ hne, hslot (slotsDistinct_freshSlots _) e₁ h₁ e₂ h₂ hne⟩⟩

/-- C2. After the initial `CreateDeviceDependentResources`, in every state
that a sequence of calls reaches, `OnDeviceLost` followed by
`OnDeviceRestored` returns and leaves a registry with as many entries as the
registry had right after the initial call. -/
theorem registry_size_after_reset (slotOf : SlotPolicy) (g₀ g₁ g : Game) (cs : List Call)
    (h₀ : CreateDeviceDependentResources slotOf g₀ = some g₁)
    (h : calls slotOf g₁ cs = some g) :
    ∃ g' n, OnDeviceRestored slotOf (OnDeviceLost g) = some g' ∧
      registrySize g' = some n ∧ registrySize g₁ = some n := by
  have hl : g.m_textureLoadList = g₀.m_textureLoadList := by
    rw [calls_loadList slotOf cs g₁ g h, createDeviceDependentResources_loadList slotOf g₀ g₁ h₀]
  rw [createDeviceDependentResources_eq] at h₀
  cases hf : g₀.m_textureLoadList.foldlM (loadTexture slotOf)
      (⟨Descriptors.Count.toNat, Descriptors.Reserve.toNat⟩, ⟨[], []⟩, StdMap.empty) with
  | none => rw [hf] at h₀; cases h₀
  | some s =>
    rw [hf] at h₀
    refine ⟨{ OnDeviceLost g with m_srvPile := some s.1, m_textureResources := some s.2.1,
                                  m_texHands := some s.2.2 }, s.2.2.size, ?_, rfl, ?_⟩
    · have hf' : (OnDeviceLost g).m_textureLoadList.foldlM (loadTexture slotOf)
          (⟨Descriptors.Count.toNat, Descriptors.Reserve.toNat⟩, ⟨[], []⟩, StdMap.empty)
          = some s := by
        rw [← hl] at hf
        exact hf
      rw [OnDeviceRestored, createDeviceDependentResources_eq, hf']
      rfl
    · rw [← Option.some.inj h₀]
      rfl

/-- Witness of C2: the load list `[4096, 8192, 4096]`, one frame, then the
loss of the device. -/
theorem registry_size_after_reset_witness :
    CreateDeviceDependentResources freshSlots threeNames = some threeNamesLoaded ∧
    calls freshSlots threeNamesLoaded
      [.OnActivated, .Tick, .OnWindowSizeChanged 800 600, .OnDeviceLost]
      = some threeNamesLost ∧
    ∃ g' n, OnDeviceRestored freshSlots (OnDeviceLost threeNamesLost) = some g' ∧
      registrySize g' = some n ∧ registrySize threeNamesLoaded = some n :=
  ⟨by decide, by decide,
    registry_size_after_reset freshSlots threeNames threeNamesLoaded threeNamesLost
      [.OnActivated, .Tick, .OnWindowSizeChanged 800 600, .OnDeviceLost] (by decide) (by decide)⟩

/-- C3. `GetDefaultSize` is a constant function without side effects: in every
state of the controller and whatever its two reference arguments hold, it
writes the same pair, the two constants, and leaves the controller as it
was. -/
theorem getDefaultSize_constant (defaultWidth defaultHeight : Int) (g₁ g₂ : Game)
    (w₁ h₁ w₂ h₂ : Int) :
    (GetDefaultSize defaultWidth defaultHeight g₁ w₁ h₁).2 =
      (GetDefaultSize defaultWidth defaultHeight g₂ w₂ h₂).2 ∧
    (GetDefaultSize defaultWidth defaultHeight g₁ w₁ h₁).2 = (defaultWidth, defaultHeight) ∧
    (GetDefaultSize defaultWidth defaultHeight g₁ w₁ h₁).1 = g₁ :=
  ⟨rfl, rfl, rfl⟩

end Game
